import Mathlib

/-!
# Verification of the Cooperative-Positioning Data Handler core

Shallow embedding of the time-synchronization engine, ground-truth
derivation, error-statistics engine and trajectory/measurement simulator
(`src/DataHandler.cpp`, `src/Robot.cpp`, `src/Simulator.cpp`), together
with theorems settling the frozen specification claims.

Numeric conventions: C++ `double` values are modelled exactly — as `ℚ`
for code that only uses field arithmetic and comparisons, and as `ℝ`
where `π`, `sqrt`, `sin`/`cos` or `atan2` appear.  Out-of-bounds vector
accesses (undefined behaviour in the source) are modelled by `Option`
results, `none` standing for the undefined access.
-/

noncomputable section

set_option maxHeartbeats 1000000

/-- `Robot::State` (Robot.h): a time-stamped pose record. -/
structure State (α : Type) where
  time : α
  x : α
  y : α
  orientation : α
  deriving DecidableEq, Inhabited

/-- `Robot::Odometry` (Robot.h): a time-stamped velocity record. -/
structure Odometry (α : Type) where
  time : α
  forward_velocity : α
  angular_velocity : α
  deriving DecidableEq, Inhabited

/-- `Robot::Measurement` (Robot.h): one time stamp with three parallel
sequences of observed subjects (barcodes), ranges and bearings. -/
structure Measurement (α : Type) where
  time : α
  subjects : List ℕ
  ranges : List α
  bearings : List α
  deriving DecidableEq, Inhabited

/-- `Robot::RobotData` (Robot.h): the raw record sets of one robot, as
used by `DataHandler::syncData`. -/
structure RobotData (α : Type) where
  states : List (State α)
  odometry : List (Odometry α)
  measurements : List (Measurement α)
  deriving DecidableEq

/-- `Robot::ErrorStatistics` (Robot.h): statistics of one scalar error
channel. -/
structure ErrorStatistics (α : Type) where
  mean : α
  variance : α
  median : α
  q1 : α
  q3 : α
  iqr : α
  deriving DecidableEq

/-! ## Angle normalisation

Every site in the source normalises an angle with the same two loops

  while (theta >= M_PI)  theta -= 2.0 * M_PI;
  while (theta < -M_PI)  theta += 2.0 * M_PI;

(DataHandler.cpp:717-720, 930-933; Simulator.cpp:461-464, 521-524;
Robot.cpp:70-73).  The loops terminate at the unique representative of
the angle modulo `2π` lying in `[-π, π)`; `wrapAngle` is that
representative, written in closed form with the floor function.  The
lemmas `wrapAngle_eq_self` and `wrapAngle_add_two_pi` below certify that
`wrapAngle` is exactly the function the loops compute: it is invariant
under the loop step `±2π` and is the identity once the angle lies in the
loops' exit region. -/
def wrapAngle (θ : ℝ) : ℝ :=
  θ - 2 * Real.pi * ⌊(θ + Real.pi) / (2 * Real.pi)⌋

/-- `std::atan2(y, x)`: the argument of the complex number `x + y·i`,
with the C library convention `atan2(0, -1) = π`, range `(-π, π]`. -/
def atan2 (y x : ℝ) : ℝ :=
  Complex.arg ⟨x, y⟩

/-! ## Time synchronization horizon (`DataHandler::syncData`, lines 609-653)

The engine first scans the robots for the minimum and maximum dataset
times.  `minimum_time`/`maximum_time` are seeded from robot 0's raw pose
stream only; every later robot contributes the *minimum* over its three
streams of that stream's first (resp. last) time stamp, and the running
bounds are updated by `<`/`>` comparisons — so the final `maximum_time`
is the *maximum* over the later robots' values.  An empty stream makes
`front()`/`back()` read an empty vector (undefined behaviour), modelled
as `none`. -/

/-- `std::min({states.front().time, odometry.front().time,
measurements.front().time})` for one robot (DataHandler.cpp:615-618). -/
def robotStartTime (r : RobotData ℚ) : Option ℚ :=
  match r.states.head?, r.odometry.head?, r.measurements.head? with
  | some s, some o, some m => some (min (min s.time o.time) m.time)
  | _, _, _ => none

/-- `std::min({states.back().time, odometry.back().time,
measurements.back().time})` for one robot (DataHandler.cpp:619-621). -/
def robotEndTime (r : RobotData ℚ) : Option ℚ :=
  match r.states.getLast?, r.odometry.getLast?, r.measurements.getLast? with
  | some s, some o, some m => some (min (min s.time o.time) m.time)
  | _, _, _ => none

/-- Total versions of the two bounds, for stating theorems about the
non-empty case. -/
def robotStartTimeD (r : RobotData ℚ) : ℚ :=
  min (min ((r.states.headD default).time) ((r.odometry.headD default).time))
    ((r.measurements.headD default).time)

/-- Total version of `robotEndTime` (see `robotStartTimeD`). -/
def robotEndTimeD (r : RobotData ℚ) : ℚ :=
  min (min ((r.states.getLastD default).time) ((r.odometry.getLastD default).time))
    ((r.measurements.getLastD default).time)

/-- The `minimum_time`/`maximum_time` scan of `DataHandler::syncData`
(lines 611-629): seeded from robot 0's pose stream, folded over the
remaining robots with `<`/`>` updates. -/
def syncBounds (robots : List (RobotData ℚ)) : Option (ℚ × ℚ) :=
  match robots with
  | [] => none
  | r0 :: rest => do
      let s0 ← r0.states.head?
      let e0 ← r0.states.getLast?
      rest.foldlM
        (fun (p : ℚ × ℚ) r => do
          let rmn ← robotStartTime r
          let rmx ← robotEndTime r
          pure (if rmn < p.1 then rmn else p.1, if rmx > p.2 then rmx else p.2))
        (s0.time, e0.time)

/-- `total_synced_datapoints = std::floor(maximum_time / sample_period) + 1`
after `maximum_time -= minimum_time` (DataHandler.cpp:652-653). -/
def totalSyncedDatapoints (robots : List (RobotData ℚ)) (T : ℚ) : Option ℤ :=
  (syncBounds robots).map (fun p => ⌊(p.2 - p.1) / T⌋ + 1)

/-- Follows the spec's words, for comparison with the source: "the
synchronized horizon as the minimum of the agents' maximum stream time"
— each agent's maximum stream time being the largest last-sample time
among its three streams — after normalising the time origin to the
minimum first-sample time across all agents and streams. -/
def specAgentEndTime (r : RobotData ℚ) : Option ℚ :=
  match r.states.getLast?, r.odometry.getLast?, r.measurements.getLast? with
  | some s, some o, some m => some (max (max s.time o.time) m.time)
  | _, _, _ => none

/-- Follows the spec's words: "floor-divide by the configured sample
period to get the synced step count" applied to the spec's horizon. -/
def specSyncedStepCount (robots : List (RobotData ℚ)) (T : ℚ) : Option ℤ := do
  let starts ← robots.mapM robotStartTime
  let ends ← robots.mapM specAgentEndTime
  match starts, ends with
  | s0 :: ss, e0 :: es => some ⌊((es.foldl min e0) - (ss.foldl min s0)) / T⌋
  | _, _ => none

/-! ## Odometry resampling (`DataHandler::syncData`, lines 733-757)

For one synced timestep `t`, the cursor is advanced by
`std::find_if(..., element.time > t)`.  If it lands on `begin()` or on
`end() - 1` the synced odometry is `(t, 0, 0)`; if it lands on `end()`
(every raw sample's time is `≤ t`) the interpolation branch dereferences
`end()` (undefined behaviour, modelled `none`); otherwise the two
surrounding samples are linearly interpolated. -/
def syncedOdometryAt (odo : List (Odometry ℚ)) (t : ℚ) : Option (ℚ × ℚ) :=
  let j := odo.findIdx (fun e => decide (t < e.time))
  if j = 0 ∨ j = odo.length - 1 then some (0, 0)
  else if j = odo.length then none
  else
    match odo.get? (j - 1), odo.get? j with
    | some a, some b =>
        let f := (t - a.time) / (b.time - a.time)
        some (f * (b.forward_velocity - a.forward_velocity) + a.forward_velocity,
              f * (b.angular_velocity - a.angular_velocity) + a.angular_velocity)
    | _, _ => none

/-! ## Orientation interpolation and ground-truth measurement geometry -/

/-- Interpolated orientation of `DataHandler::syncData` (lines 702-720):
a `±2π` pre-correction when the raw delta exceeds the wrap threshold 5,
linear interpolation, then normalisation. -/
def interpOrientation (θp θn f : ℝ) : ℝ :=
  let next :=
    if θn - θp > 5 then θn - 2 * Real.pi
    else if θn - θp < -5 then θn + 2 * Real.pi
    else θn
  wrapAngle (f * (next - θp) + θp)

/-- Ground-truth range of `DataHandler::calculateGroundtruthMeasurement`
(lines 912-937): Euclidean distance from subject-minus-observer
coordinate differences. -/
def gtRange (sx sy ox oy : ℝ) : ℝ :=
  Real.sqrt ((sx - ox) * (sx - ox) + (sy - oy) * (sy - oy))

/-- Ground-truth bearing of `DataHandler::calculateGroundtruthMeasurement`
(lines 926-933): `atan2` of the subject-minus-observer differences minus
the observer orientation, normalised. -/
def gtBearing (sx sy ox oy oθ : ℝ) : ℝ :=
  wrapAngle (atan2 (sy - oy) (sx - ox) - oθ)

/-- One unicycle step of `Simulator::setRobotOdometryAndState`
(Simulator.cpp:455-464): `θ + Δt·ω`, normalised. -/
def simStepOrientation (θ T ω : ℝ) : ℝ :=
  wrapAngle (θ + T * ω)

/-! ## Ground-truth odometry derivation
(`DataHandler::calculateGroundtruthOdometry`, lines 819-849) -/

/-- The odometry derived from two consecutive synced poses `a`, `b`:
forward velocity is the Euclidean distance over the sample period,
angular velocity is `atan2(sin Δθ, cos Δθ)` over the sample period, time
stamped at `a` (DataHandler.cpp:826-840). -/
def derivedOdometry (a b : State ℝ) (T : ℝ) : Odometry ℝ :=
  ⟨a.time,
   Real.sqrt ((b.x - a.x) * (b.x - a.x) + (b.y - a.y) * (b.y - a.y)) / T,
   atan2 (Real.sin (b.orientation - a.orientation))
       (Real.cos (b.orientation - a.orientation)) / T⟩

/-- `DataHandler::calculateGroundtruthOdometry` for one robot: derive an
odometry record from each consecutive pose pair, then append a copy of
the last synced odometry record (lines 842-847).  An empty pose list
makes the `k < size() - 1` loop read past the vector (`size_t`
underflow), an empty synced odometry list makes `back()` undefined: both
are modelled `none`. -/
def calculateGroundtruthOdometry (states : List (State ℝ))
    (synced : List (Odometry ℝ)) (T : ℝ) : Option (List (Odometry ℝ)) :=
  match states, synced.getLast? with
  | [], _ => none
  | _, none => none
  | s :: ss, some lastO =>
      some (List.zipWith (fun a b => derivedOdometry a b T) (s :: ss) ss ++
        [⟨lastO.time, lastO.forward_velocity, lastO.angular_velocity⟩])

/-! ## Simulator measurement generation
(`Simulator::setRobotMeasurement`, Simulator.cpp:476-598) -/

/-- A simulated robot at one trajectory step: barcode and ground-truth
pose. -/
structure SimRobot where
  barcode : ℕ
  x : ℝ
  y : ℝ
  orientation : ℝ

/-- A simulated landmark (landmark.h): barcode and position. -/
structure SimLandmark where
  barcode : ℕ
  x : ℝ
  y : ℝ

/-- One candidate observation of the simulator (Simulator.cpp:501-547):
coordinate differences are observer minus subject, the observation is
dropped when the range exceeds `max_range = 4.0` or the normalised
bearing magnitude exceeds `0.52`. -/
def simObserve (ox oy oθ : ℝ) (sb : ℕ) (sx sy : ℝ) : Option (ℕ × ℝ × ℝ) :=
  let xd := ox - sx
  let yd := oy - sy
  let range := Real.sqrt (xd * xd + yd * yd)
  if 4 < range then none
  else
    let bearing := wrapAngle (atan2 yd xd - oθ)
    if (0.52 : ℝ) < |bearing| then none
    else some (sb, range, bearing)

/-- The robot-subject loop of `Simulator::setRobotMeasurement`
(lines 494-548): every subject index except the observer's own, in
order, `j` being the index of the list head. -/
def measureRobots (ox oy oθ : ℝ) (selfIdx : ℕ) :
    List SimRobot → ℕ → List (ℕ × ℝ × ℝ)
  | [], _ => []
  | s :: rest, j =>
      (if j = selfIdx then [] else (simObserve ox oy oθ s.barcode s.x s.y).toList) ++
        measureRobots ox oy oθ selfIdx rest (j + 1)

/-- The landmark loop of `Simulator::setRobotMeasurement`
(lines 551-595): it iterates `landmark_id < total_robots` — the robot
count, not the landmark count — so it visits exactly `n` landmarks,
reading past the landmark vector (undefined, `none`) when fewer exist. -/
def measureLandmarks (ox oy oθ : ℝ) :
    List SimLandmark → ℕ → Option (List (ℕ × ℝ × ℝ))
  | _, 0 => some []
  | [], _ + 1 => none
  | L :: rest, n + 1 => do
      let tail ← measureLandmarks ox oy oθ rest n
      pure ((simObserve ox oy oθ L.barcode L.x L.y).toList ++ tail)

/-- All observations generated for observer `i` at one trajectory step:
the robot loop followed by the landmark loop, the bundled contents of
the `Robot::Measurement` records pushed for that observer and step. -/
def simBundle (robots : List SimRobot) (landmarks : List SimLandmark)
    (i : ℕ) : Option (List (ℕ × ℝ × ℝ)) := do
  let obs ← robots.get? i
  let lms ← measureLandmarks obs.x obs.y obs.orientation landmarks robots.length
  pure (measureRobots obs.x obs.y obs.orientation i robots 0 ++ lms)

/-- The measurement sub-rate gating of `Simulator::setRobotMeasurement`
(lines 479-486): observations are generated only when
`k % measurement_to_odometry_ratio == 0` with ratio 5. -/
def simObservationsAt (k : ℕ) (robots : List SimRobot)
    (landmarks : List SimLandmark) (i : ℕ) : Option (List (ℕ × ℝ × ℝ)) :=
  if k % 5 = 0 then simBundle robots landmarks i else some []

/-- Follows the spec's words, for comparison with the source: accept an
observation exactly when its true range is at most the maximum sensing
range and its true bearing magnitude is at most half the field of view,
with range and bearing computed by the same relative-pose formula as
ground-truth derivation (subject minus observer). -/
def specObserve (ox oy oθ : ℝ) (sb : ℕ) (sx sy : ℝ) : Option (ℕ × ℝ × ℝ) :=
  let range := gtRange sx sy ox oy
  if 4 < range then none
  else
    let bearing := gtBearing sx sy ox oy oθ
    if (0.52 : ℝ) < |bearing| then none
    else some (sb, range, bearing)

/-! ## Outlier removal (`Robot::removeOutliers`, Robot.cpp:376-431) -/

/-- The removal test of `Robot::removeOutliers` (lines 403-406): the
range error outside `[q1 - 10·iqr, q3 + 10·iqr]` or the bearing error
outside `[q1 - 20·iqr, q3 + 20·iqr]`. -/
def outlierTriple (rs bs : ErrorStatistics ℚ) (r b : ℚ) : Bool :=
  decide (r < rs.q1 - 10 * rs.iqr) || decide (r > rs.q3 + 10 * rs.iqr) ||
    decide (b < bs.q1 - 20 * bs.iqr) || decide (b > bs.q3 + 20 * bs.iqr)

/-- The lock-step erase loop over one bundle's three parallel sequences
(lines 397-421).  The loop runs until the subject iterator reaches its
end; a range/bearing sequence shorter than the subject sequence would be
dereferenced past its end (undefined, `none`), leftovers of longer
sequences are untouched. -/
def removeOutlierTriples (rs bs : ErrorStatistics ℚ) :
    List ℕ → List ℚ → List ℚ → Option (List ℕ × List ℚ × List ℚ)
  | [], rgs, brs => some ([], rgs, brs)
  | s :: ss, r :: rgs, b :: brs =>
      if outlierTriple rs bs r b then removeOutlierTriples rs bs ss rgs brs
      else do
        let (S, R, B) ← removeOutlierTriples rs bs ss rgs brs
        pure (s :: S, r :: R, b :: B)
  | _ :: _, _, _ => none

/-- `Robot::removeOutliers` over the measurement-error record set: each
bundle's triples are filtered, and a bundle whose subjects become empty
is erased entirely (lines 423-429). -/
def removeOutliers (rs bs : ErrorStatistics ℚ) :
    List (Measurement ℚ) → Option (List (Measurement ℚ))
  | [] => some []
  | m :: ms => do
      let (S, R, B) ← removeOutlierTriples rs bs m.subjects m.ranges m.bearings
      let rest ← removeOutliers rs bs ms
      pure (if S.isEmpty then rest else ⟨m.time, S, R, B⟩ :: rest)

/-! ## Quartiles (`Robot::calculateMedian` / `Robot::calculateQuartiles`,
Robot.cpp:280-314) -/

/-- `Robot::calculateMedian`: the median index of the inclusive index
range `[lower, upper]` (lower-median convention). -/
def calculateMedian (lower upper : ℕ) : ℕ :=
  (upper - lower + 1 + 1) / 2 - 1 + lower

/-- `Robot::calculateQuartiles` on a sorted vector, returning
`(median, q1, q3, iqr)`.  For `n = 0` the source indexes an empty vector
(undefined) and for `n = 1` the odd branch computes
`calculateMedian(0, index - 1)` with `index = 0`, whose `unsigned`
wrap-around makes `.at` throw `std::out_of_range` — both modelled
`none`.  For the odd branch note the upper bound passed for `q3` is
`sorted_vector.size()`, one past the last index. -/
def calculateQuartiles (v : List ℚ) : Option (ℚ × ℚ × ℚ × ℚ) :=
  if v.length ≤ 1 then none
  else
    let index := calculateMedian 0 (v.length - 1)
    do
      let median ← v.get? index
      let q1 ←
        if v.length % 2 = 0 then v.get? (calculateMedian 0 index)
        else v.get? (calculateMedian 0 (index - 1))
      let q3 ←
        if v.length % 2 = 0 then v.get? (calculateMedian (index + 1) (v.length - 1))
        else v.get? (calculateMedian (index + 1) v.length)
      pure (median, q1, q3, q3 - q1)

/-- Follows the spec's words: the lower median (index `⌈n/2⌉ - 1`) of a
sorted list. -/
def specMedianOfSorted (l : List ℚ) : Option ℚ :=
  l.get? ((l.length + 1) / 2 - 1)

/-- Follows the spec's words: median at index `⌈n/2⌉ - 1`; `Q1` the
median of the lower half — including the median element when `n` is odd
— `Q3` the median of the upper half; `IQR = Q3 - Q1`. -/
def specQuartiles (v : List ℚ) : Option (ℚ × ℚ × ℚ × ℚ) := do
  let index := (v.length + 1) / 2 - 1
  let median ← v.get? index
  let lower := if v.length % 2 = 0 then v.take (v.length / 2) else v.take (index + 1)
  let upper := if v.length % 2 = 0 then v.drop (v.length / 2) else v.drop index
  let q1 ← specMedianOfSorted lower
  let q3 ← specMedianOfSorted upper
  pure (median, q1, q3, q3 - q1)

/-! ## Sample error statistics
(`Robot::calculateSampleErrorStats`, Robot.cpp:171-272) -/

/-- Forward-velocity error mean (lines 182-189): sum over the odometry
error records divided by their count. -/
def forwardVelocityErrorMean (odo : List (Odometry ℚ)) : ℚ :=
  (odo.map (·.forward_velocity)).sum / (odo.length : ℚ)

/-- Forward-velocity error variance (lines 192-201): squared deviations
from the mean, summed per record, divided by `n - 1`. -/
def forwardVelocityErrorVariance (odo : List (Odometry ℚ)) : ℚ :=
  (odo.map (fun e => (e.forward_velocity - forwardVelocityErrorMean odo) ^ 2)).sum /
    ((odo.length : ℚ) - 1)

/-- Angular-velocity error mean (lines 204-211). -/
def angularVelocityErrorMean (odo : List (Odometry ℚ)) : ℚ :=
  (odo.map (·.angular_velocity)).sum / (odo.length : ℚ)

/-- Angular-velocity error variance (lines 214-223). -/
def angularVelocityErrorVariance (odo : List (Odometry ℚ)) : ℚ :=
  (odo.map (fun e => (e.angular_velocity - angularVelocityErrorMean odo) ^ 2)).sum /
    ((odo.length : ℚ) - 1)

/-- `total_measurements` (lines 230-237): the number of individual range
entries over all measurement-error bundles. -/
def totalMeasurements (ms : List (Measurement ℚ)) : ℕ :=
  (ms.map (·.ranges.length)).sum

/-- Range error mean (lines 231-239): all individual range errors
summed, divided by `total_measurements`. -/
def rangeErrorMean (ms : List (Measurement ℚ)) : ℚ :=
  (ms.map (fun m => m.ranges.sum)).sum / (totalMeasurements ms : ℚ)

/-- Range error variance (lines 242-250): the accumulated term is
`pow(sum-of-the-bundle's-ranges - mean, 2)` — one squared deviation per
*bundle*, of the bundle's summed ranges — divided by
`total_measurements - 1`. -/
def rangeErrorVariance (ms : List (Measurement ℚ)) : ℚ :=
  (ms.map (fun m => (m.ranges.sum - rangeErrorMean ms) ^ 2)).sum /
    ((totalMeasurements ms : ℚ) - 1)

/-- Bearing error mean (lines 253-259); the divisor is the
`total_measurements` counted from the range sequences. -/
def bearingErrorMean (ms : List (Measurement ℚ)) : ℚ :=
  (ms.map (fun m => m.bearings.sum)).sum / (totalMeasurements ms : ℚ)

/-- Bearing error variance (lines 262-271): per-bundle squared
deviations of the bundle's summed bearings, divided by
`total_measurements - 1`. -/
def bearingErrorVariance (ms : List (Measurement ℚ)) : ℚ :=
  (ms.map (fun m => (m.bearings.sum - bearingErrorMean ms) ^ 2)).sum /
    ((totalMeasurements ms : ℚ) - 1)

/-- Follows the spec's words: the arithmetic mean of a channel's
individual error values. -/
def specMean (xs : List ℚ) : ℚ :=
  xs.sum / (xs.length : ℚ)

/-- Follows the spec's words: the Bessel-corrected sample variance over
a channel's individual error values. -/
def specVariance (xs : List ℚ) : ℚ :=
  (xs.map (fun x => (x - specMean xs) ^ 2)).sum / ((xs.length : ℚ) - 1)

/-- The flattened individual range-error channel of a measurement-error
record set. -/
def rangeChannel (ms : List (Measurement ℚ)) : List ℚ :=
  (ms.map (·.ranges)).flatten

/-! ## Odometry error (`Robot::calculateOdometryError`, Robot.cpp:40-79) -/

/-- The failure modes of `Robot::calculateOdometryError`: the two
`std::runtime_error` throws for unset data (lines 42-51), and the
out-of-bounds read of `synced.odometry[k]` when that vector is shorter
than the loop bound (undefined behaviour). -/
inductive OdometryErrorFailure where
  | groundtruthNotSet
  | syncedNotSet
  | outOfBounds
  deriving DecidableEq

/-- `Robot::calculateOdometryError`: one error record per ground-truth
odometry index `k < size - 1`, the difference of ground-truth and synced
velocities with the angular channel normalised, time stamped from the
ground truth (lines 61-78). -/
def calculateOdometryError (gt synced : List (Odometry ℝ)) :
    Except OdometryErrorFailure (List (Odometry ℝ)) :=
  if gt.length = 0 then .error .groundtruthNotSet
  else if synced.length = 0 then .error .syncedNotSet
  else if synced.length < gt.length - 1 then .error .outOfBounds
  else .ok (List.zipWith
    (fun g s =>
      ⟨g.time, g.forward_velocity - s.forward_velocity,
        wrapAngle (g.angular_velocity - s.angular_velocity)⟩)
    (gt.take (gt.length - 1)) synced)

/-! ## Concrete datasets used by counterexamples and witnesses -/

/-- Robot with all three streams spanning times 0..1. -/
def exC1R0 : RobotData ℚ :=
  ⟨[⟨0, 0, 0, 0⟩, ⟨1, 1, 0, 0⟩], [⟨0, 0, 0⟩, ⟨1, 0, 0⟩],
    [⟨0, [1], [1], [0]⟩, ⟨1, [1], [1], [0]⟩]⟩

/-- Robot with all three streams spanning times 0..3. -/
def exC1R1 : RobotData ℚ :=
  ⟨[⟨0, 0, 0, 0⟩, ⟨3, 1, 0, 0⟩], [⟨0, 0, 0⟩, ⟨3, 0, 0⟩],
    [⟨0, [1], [1], [0]⟩, ⟨3, [1], [1], [0]⟩]⟩

/-- Robot whose raw odometry stream is empty. -/
def exC9R1 : RobotData ℚ :=
  ⟨[⟨0, 0, 0, 0⟩, ⟨3, 1, 0, 0⟩], [], [⟨0, [1], [1], [0]⟩]⟩

/-- Robot whose raw pose stream is empty. -/
def exC9R0 : RobotData ℚ :=
  ⟨[], [⟨0, 0, 0⟩], [⟨0, [1], [1], [0]⟩]⟩

/-- Raw odometry stream with samples at times 0, 1, 2. -/
def exC2Odo : List (Odometry ℚ) :=
  [⟨0, 1, 1⟩, ⟨1, 2, 2⟩, ⟨2, 3, 3⟩]

/-- A two-step ground-truth odometry list. -/
def exC10Gt : List (Odometry ℝ) :=
  [⟨0, 1, 1⟩, ⟨1, 2, 2⟩]

/-- A two-step synced odometry list. -/
def exC10Synced : List (Odometry ℝ) :=
  [⟨0, 1, 1⟩, ⟨1, 2, 2⟩]

/-- Synced poses of spec scenario 1, agent 1: `[(0,0,0,0), (1,1,0,0)]`. -/
def exC4States : List (State ℝ) :=
  [⟨0, 0, 0, 0⟩, ⟨1, 1, 0, 0⟩]

/-- Synced odometry matching `exC4States`. -/
def exC4Synced : List (Odometry ℝ) :=
  [⟨0, 0, 0⟩, ⟨1, 0, 0⟩]

/-- A sorted five-element error channel. -/
def exC7 : List ℚ :=
  [0, 1, 2, 3, 4]

/-- The complement of `outlierTriple` on a zipped
(subject, range, bearing) triple: kept exactly when the range error lies
within the closed window `[q1 - 10·iqr, q3 + 10·iqr]` and the bearing
error within `[q1 - 20·iqr, q3 + 20·iqr]` — the claim's acceptance
condition. -/
def keepTriple (rs bs : ErrorStatistics ℚ) (t : ℕ × ℚ × ℚ) : Bool :=
  decide (rs.q1 - 10 * rs.iqr ≤ t.2.1) && decide (t.2.1 ≤ rs.q3 + 10 * rs.iqr) &&
    decide (bs.q1 - 20 * bs.iqr ≤ t.2.2) && decide (t.2.2 ≤ bs.q3 + 20 * bs.iqr)

/-- A single measurement-error bundle holding two range errors 1 and 3. -/
def exC8 : List (Measurement ℚ) :=
  [⟨0, [1, 2], [1, 3], [0, 0]⟩]

/-- Range-error statistics of spec scenario 3: `Q1 = 1, Q3 = 2, IQR = 1`. -/
def exC6RangeStats : ErrorStatistics ℚ :=
  ⟨0, 0, 0, 1, 2, 1⟩

/-- Degenerate bearing-error statistics (window `[0, 0]`). -/
def exC6BearingStats : ErrorStatistics ℚ :=
  ⟨0, 0, 0, 0, 0, 0⟩

/-- A bundle whose first range error 15 lies outside `[-9, 12]`. -/
def exC6Ms : List (Measurement ℚ) :=
  [⟨0, [7, 8], [15, 1], [0, 0]⟩]

/-- Two simulated robots: the observer at the origin facing the second
robot, which sits one metre ahead of it. -/
def exC5Robots : List SimRobot :=
  [⟨1, 0, 0, 0⟩, ⟨2, 1, 0, 0⟩]

/-- Two landmarks far outside the sensing range. -/
def exC5Lms : List SimLandmark :=
  [⟨10, 100, 0⟩, ⟨11, 100, 0⟩]

end

/-! ## Properties of the angle normalisation -/

theorem two_pi_pos : (0 : ℝ) < 2 * Real.pi := by positivity

theorem wrapAngle_fract (θ : ℝ) :
    wrapAngle θ = 2 * Real.pi * Int.fract ((θ + Real.pi) / (2 * Real.pi)) - Real.pi := by
  have h : (2 * Real.pi) * ((θ + Real.pi) / (2 * Real.pi)) = θ + Real.pi := by
    field_simp
  unfold wrapAngle Int.fract
  nlinarith [h]

/-- The loops' result lies in `[-π, π)`. -/
theorem wrapAngle_mem (θ : ℝ) : -Real.pi ≤ wrapAngle θ ∧ wrapAngle θ < Real.pi := by
  rw [wrapAngle_fract]
  have h0 := Int.fract_nonneg ((θ + Real.pi) / (2 * Real.pi))
  have h1 := Int.fract_lt_one ((θ + Real.pi) / (2 * Real.pi))
  constructor
  · nlinarith [two_pi_pos]
  · nlinarith [two_pi_pos]

/-- On the loops' exit region the normalisation is the identity: both
loop guards are false and the value is returned unchanged. -/
theorem wrapAngle_eq_self {θ : ℝ} (h1 : -Real.pi ≤ θ) (h2 : θ < Real.pi) :
    wrapAngle θ = θ := by
  have hq0 : (0 : ℝ) ≤ (θ + Real.pi) / (2 * Real.pi) := by
    apply div_nonneg <;> nlinarith [Real.pi_pos]
  have hq1 : (θ + Real.pi) / (2 * Real.pi) < 1 := by
    rw [div_lt_one two_pi_pos]; nlinarith
  have : ⌊(θ + Real.pi) / (2 * Real.pi)⌋ = 0 := by
    rw [Int.floor_eq_zero_iff]; exact ⟨hq0, hq1⟩
  unfold wrapAngle
  rw [this]
  push_cast
  ring

/-- One iteration of the first loop leaves the result unchanged. -/
theorem wrapAngle_sub_two_pi (θ : ℝ) : wrapAngle (θ - 2 * Real.pi) = wrapAngle θ := by
  have h : (θ - 2 * Real.pi + Real.pi) / (2 * Real.pi) =
      (θ + Real.pi) / (2 * Real.pi) - 1 := by
    field_simp
    ring
  unfold wrapAngle
  rw [h]
  rw [show (θ + Real.pi) / (2 * Real.pi) - 1 = (θ + Real.pi) / (2 * Real.pi) + (-1 : ℤ) by
    push_cast; ring]
  rw [Int.floor_add_int]
  push_cast
  ring

/-- One iteration of the second loop leaves the result unchanged. -/
theorem wrapAngle_add_two_pi (θ : ℝ) : wrapAngle (θ + 2 * Real.pi) = wrapAngle θ := by
  have := wrapAngle_sub_two_pi (θ + 2 * Real.pi)
  simpa using this.symm

/-- Normalising exactly `π` yields `-π`: the first loop fires once. -/
theorem wrapAngle_pi : wrapAngle Real.pi = -Real.pi := by
  have h : (Real.pi + Real.pi) / (2 * Real.pi) = 1 := by
    rw [div_eq_one_iff_eq (ne_of_gt two_pi_pos)]
    ring
  unfold wrapAngle
  rw [h]
  rw [Int.floor_one]
  push_cast
  ring

theorem atan2_zero_one : atan2 0 1 = 0 := by
  have h : (⟨1, 0⟩ : ℂ) = 1 := by
    apply Complex.ext <;> simp
  unfold atan2
  rw [h, Complex.arg_one]

theorem atan2_zero_neg_one : atan2 0 (-1) = Real.pi := by
  have h : (⟨-1, 0⟩ : ℂ) = -1 := by
    apply Complex.ext <;> simp
  unfold atan2
  rw [h, Complex.arg_neg_one]

/-! ## Claim C3 -/

/-- C3, counterexample: the ground-truth bearing of a subject directly
behind an unrotated observer is exactly `-π`, so a produced bearing
value of `-π` does occur and `-π < θ` fails — the source wraps to
`[-π, π)`, not `(-π, π]`. -/
theorem gtBearing_neg_pi_counterexample :
    gtBearing (-1) 0 0 0 0 = -Real.pi ∧ ¬ (-Real.pi < gtBearing (-1) 0 0 0 0) := by
  have h : gtBearing (-1) 0 0 0 0 = -Real.pi := by
    unfold gtBearing
    norm_num [atan2_zero_neg_one, wrapAngle_pi]
  exact ⟨h, by rw [h]; exact lt_irrefl _⟩

/-- C3, amended: every orientation or bearing value produced by the
interpolation of `DataHandler::syncData`, the bearing computation of
`DataHandler::calculateGroundtruthMeasurement`, and the kinematic step
of `Simulator::setRobotOdometryAndState` satisfies `-π ≤ θ < π` —
`θ = -π` may occur and `θ = π` never occurs. -/
theorem angle_wrap_invariant :
    (∀ θp θn f : ℝ,
      -Real.pi ≤ interpOrientation θp θn f ∧ interpOrientation θp θn f < Real.pi) ∧
    (∀ sx sy ox oy oθ : ℝ,
      -Real.pi ≤ gtBearing sx sy ox oy oθ ∧ gtBearing sx sy ox oy oθ < Real.pi) ∧
    (∀ θ T ω : ℝ,
      -Real.pi ≤ simStepOrientation θ T ω ∧ simStepOrientation θ T ω < Real.pi) := by
  refine ⟨fun θp θn f => ?_, fun sx sy ox oy oθ => ?_, fun θ T ω => ?_⟩
  · exact wrapAngle_mem _
  · exact wrapAngle_mem _
  · exact wrapAngle_mem _

/-! ## Fold helpers for the horizon scan -/

theorem if_lt_eq_min (a x : ℚ) : (if x < a then x else a) = min a x := by
  rcases le_or_lt a x with h | h
  · rw [if_neg (not_lt.mpr h), min_eq_left h]
  · rw [if_pos h, min_eq_right h.le]

theorem if_gt_eq_max (b x : ℚ) : (if x > b then x else b) = max b x := by
  rcases le_or_lt x b with h | h
  · rw [if_neg (not_lt.mpr h), max_eq_left h]
  · rw [if_pos h, max_eq_right h.le]

theorem le_foldl_max (l : List ℚ) (b : ℚ) : b ≤ l.foldl max b := by
  induction l generalizing b with
  | nil => simp
  | cons x xs ih => exact le_trans (le_max_left b x) (ih (max b x))

theorem mem_le_foldl_max {l : List ℚ} {x : ℚ} (hx : x ∈ l) (b : ℚ) :
    x ≤ l.foldl max b := by
  induction l generalizing b with
  | nil => cases hx
  | cons y ys ih =>
    rcases List.mem_cons.mp hx with rfl | h
    · exact le_trans (le_max_right b x) (le_foldl_max ys _)
    · exact ih h _

theorem robotStartTime_eq (r : RobotData ℚ) (hs : r.states ≠ [])
    (ho : r.odometry ≠ []) (hm : r.measurements ≠ []) :
    robotStartTime r = some (robotStartTimeD r) := by
  obtain ⟨sts, odo, ms⟩ := r
  cases sts with
  | nil => exact absurd rfl hs
  | cons s ts =>
    cases odo with
    | nil => exact absurd rfl ho
    | cons o ts' =>
      cases ms with
      | nil => exact absurd rfl hm
      | cons m ts'' => rfl

theorem robotEndTime_eq (r : RobotData ℚ) (hs : r.states ≠ [])
    (ho : r.odometry ≠ []) (hm : r.measurements ≠ []) :
    robotEndTime r = some (robotEndTimeD r) := by
  unfold robotEndTime robotEndTimeD
  rw [List.getLast?_eq_getLast _ hs, List.getLast?_eq_getLast _ ho,
    List.getLast?_eq_getLast _ hm]
  rw [List.getLastD_eq_getLast? , List.getLastD_eq_getLast?, List.getLastD_eq_getLast?]
  rw [List.getLast?_eq_getLast _ hs, List.getLast?_eq_getLast _ ho,
    List.getLast?_eq_getLast _ hm]
  rfl

theorem syncBounds_foldl (rest : List (RobotData ℚ)) (a b : ℚ)
    (h : ∀ r ∈ rest, r.states ≠ [] ∧ r.odometry ≠ [] ∧ r.measurements ≠ []) :
    rest.foldlM
      (fun (p : ℚ × ℚ) r => do
        let rmn ← robotStartTime r
        let rmx ← robotEndTime r
        pure (if rmn < p.1 then rmn else p.1, if rmx > p.2 then rmx else p.2))
      (a, b) =
    some ((rest.map robotStartTimeD).foldl min a,
      (rest.map robotEndTimeD).foldl max b) := by
  induction rest generalizing a b with
  | nil => rfl
  | cons r rs ih =>
    obtain ⟨hs, ho, hm⟩ := h r (List.mem_cons_self r rs)
    have h1 := robotStartTime_eq r hs ho hm
    have h2 := robotEndTime_eq r hs ho hm
    have ih' := ih (min a (robotStartTimeD r)) (max b (robotEndTimeD r))
      (fun r' hr' => h r' (List.mem_cons_of_mem r hr'))
    have hpair : ((if robotStartTimeD r < a then robotStartTimeD r else a : ℚ),
        (if robotEndTimeD r > b then robotEndTimeD r else b : ℚ)) =
        (min a (robotStartTimeD r), max b (robotEndTimeD r)) := by
      rw [if_lt_eq_min, if_gt_eq_max]
    simp only [List.foldlM, h1, h2, Option.bind_eq_bind, Option.some_bind,
      Option.bind_some, Option.pure_def, List.map_cons, List.foldl_cons]
    rw [hpair]
    exact ih'

/-! ## Claim C1 -/

/-- C1, counterexample: with agent 1's streams ending at time 1 and
agent 2's at time 3, the source computes `total_synced_datapoints = 4`
(`⌊3/1⌋ + 1`, the horizon being the *maximum* over the later agents),
while the claim's formula — the minimum over agents of the agent's
maximum stream time, floor-divided by the period — gives 1. -/
theorem syncData_horizon_counterexample :
    totalSyncedDatapoints [exC1R0, exC1R1] 1 = some 4 ∧
    specSyncedStepCount [exC1R0, exC1R1] 1 = some 1 ∧
    totalSyncedDatapoints [exC1R0, exC1R1] 1 ≠ specSyncedStepCount [exC1R0, exC1R1] 1 := by
  have hb : syncBounds [exC1R0, exC1R1] = some (0, 3) := by decide
  have h1 : totalSyncedDatapoints [exC1R0, exC1R1] 1 = some 4 := by
    unfold totalSyncedDatapoints
    rw [hb]
    norm_num
  have hm1 : [exC1R0, exC1R1].mapM robotStartTime = some [0, 0] := by decide
  have hm2 : [exC1R0, exC1R1].mapM specAgentEndTime = some [1, 3] := by decide
  have hs : specSyncedStepCount [exC1R0, exC1R1] 1 = some 1 := by
    unfold specSyncedStepCount
    rw [hm1, hm2]
    norm_num
  exact ⟨h1, hs, by rw [h1, hs]; decide⟩

/-- C1, amended: for a dataset whose streams are all non-empty, the
engine's `maximum_time` is the *maximum* over agents 2..N of that
agent's minimum last-sample time across its three streams, and at least
agent 1's last pose time (agent 1 contributes only its pose stream);
`minimum_time` is the corresponding minimum of first-sample times; and
the synced step count is `⌊(maximum_time - minimum_time)/period⌋ + 1`
(the step at `t = 0` included). -/
theorem syncData_horizon_spec (r0 : RobotData ℚ) (rest : List (RobotData ℚ)) (T : ℚ)
    (h0 : r0.states ≠ [])
    (h : ∀ r ∈ rest, r.states ≠ [] ∧ r.odometry ≠ [] ∧ r.measurements ≠ []) :
    ∃ mn mx : ℚ,
      syncBounds (r0 :: rest) = some (mn, mx) ∧
      mn = (rest.map robotStartTimeD).foldl min ((r0.states.headD default).time) ∧
      mx = (rest.map robotEndTimeD).foldl max ((r0.states.getLastD default).time) ∧
      (∀ r ∈ rest, robotEndTimeD r ≤ mx) ∧
      (r0.states.getLastD default).time ≤ mx ∧
      totalSyncedDatapoints (r0 :: rest) T = some (⌊(mx - mn) / T⌋ + 1) := by
  have hhead : r0.states.head? = some (r0.states.head h0) := List.head?_eq_head h0
  have hlast : r0.states.getLast? = some (r0.states.getLast h0) :=
    List.getLast?_eq_getLast _ h0
  have hheadD : r0.states.headD default = r0.states.head h0 := by
    rw [List.headD_eq_head?, hhead]; rfl
  have hlastD : r0.states.getLastD default = r0.states.getLast h0 := by
    rw [List.getLastD_eq_getLast?, hlast]; rfl
  have hb : syncBounds (r0 :: rest) =
      some ((rest.map robotStartTimeD).foldl min ((r0.states.head h0).time),
        (rest.map robotEndTimeD).foldl max ((r0.states.getLast h0).time)) := by
    simp only [syncBounds]
    rw [hhead, hlast]
    simpa using syncBounds_foldl rest (r0.states.head h0).time (r0.states.getLast h0).time h
  refine ⟨_, _, hb.trans (by rw [hheadD, hlastD]), rfl, rfl, ?_, ?_, ?_⟩
  · intro r hr
    exact mem_le_foldl_max (List.mem_map_of_mem robotEndTimeD hr) _
  · exact le_foldl_max _ _
  · unfold totalSyncedDatapoints
    rw [hb, hheadD, hlastD]
    rfl

/-- C1, witness: the amended horizon theorem applied to the concrete
two-agent dataset. -/
theorem syncData_horizon_spec_witness :
    exC1R0.states ≠ [] ∧
    (∀ r ∈ [exC1R1], r.states ≠ [] ∧ r.odometry ≠ [] ∧ r.measurements ≠ []) ∧
    (∃ mn mx : ℚ,
      syncBounds (exC1R0 :: [exC1R1]) = some (mn, mx) ∧
      mn = ([exC1R1].map robotStartTimeD).foldl min ((exC1R0.states.headD default).time) ∧
      mx = ([exC1R1].map robotEndTimeD).foldl max ((exC1R0.states.getLastD default).time) ∧
      (∀ r ∈ [exC1R1], robotEndTimeD r ≤ mx) ∧
      (exC1R0.states.getLastD default).time ≤ mx ∧
      totalSyncedDatapoints (exC1R0 :: [exC1R1]) 1 = some (⌊(mx - mn) / 1⌋ + 1)) :=
  ⟨by decide, by decide, syncData_horizon_spec exC1R0 [exC1R1] 1 (by decide) (by decide)⟩

/-! ## Claim C9 -/

theorem robotStartTime_none_of_empty (r : RobotData ℚ)
    (h : r.states = [] ∨ r.odometry = [] ∨ r.measurements = []) :
    robotStartTime r = none := by
  unfold robotStartTime
  rcases h with h | h | h <;> rw [h]
  · cases r.odometry.head? <;> cases r.measurements.head? <;> rfl
  · cases r.states.head? <;> cases r.measurements.head? <;> rfl
  · cases r.states.head? <;> cases r.odometry.head? <;> rfl

theorem foldlM_option_none {α β : Type} (f : β → α → Option β) (l : List α) (x : α)
    (hx : x ∈ l) (hf : ∀ b, f b x = none) :
    ∀ b, l.foldlM f b = none := by
  induction l with
  | nil => cases hx
  | cons y ys ih =>
    intro b
    rcases List.mem_cons.mp hx with rfl | h
    · simp [List.foldlM, hf b]
    · cases hfy : f b y with
      | none => simp [List.foldlM, hfy]
      | some c =>
        simp only [List.foldlM, hfy, Option.some_bind]
        exact ih h c

/-- C9, counterexample: with agent 2's raw odometry stream empty,
`syncData` does not signal any `IncompleteDataset` diagnostic — no such
error path exists in the function — but directly evaluates
`odometry.front()` on the empty vector, an out-of-bounds read (modelled
`none`). -/
theorem syncData_empty_stream_counterexample :
    syncBounds [exC1R0, exC9R1] = none := by decide

/-- C9, amended: `syncData` performs no emptiness check and produces no
diagnostic: when agent 1's pose stream is empty, or any stream of a
later agent is empty, the horizon scan reads the front/back of an empty
vector (undefined behaviour, `none`) instead of signalling an
`IncompleteDataset` error; empty odometry or measurement streams of
agent 1 are not examined by the scan at all. -/
theorem syncData_empty_stream_no_diagnostic (r0 : RobotData ℚ) (rest : List (RobotData ℚ)) :
    (r0.states = [] → syncBounds (r0 :: rest) = none) ∧
    (∀ r ∈ rest, (r.states = [] ∨ r.odometry = [] ∨ r.measurements = []) →
      syncBounds (r0 :: rest) = none) := by
  constructor
  · intro h
    simp only [syncBounds]
    rw [h]
    rfl
  · intro r hr hempty
    simp only [syncBounds]
    cases hh : r0.states.head? with
    | none => rfl
    | some s0 =>
      cases hl : r0.states.getLast? with
      | none => rfl
      | some e0 =>
        simp only [Option.bind_eq_bind, Option.some_bind]
        exact foldlM_option_none _ rest r hr
          (fun b => by simp [robotStartTime_none_of_empty r hempty]) _

/-- C9, witness: the amended theorem applied to a one-agent dataset with
an empty pose stream. -/
theorem syncData_empty_stream_witness :
    syncBounds [exC9R0] = none :=
  (syncData_empty_stream_no_diagnostic exC9R0 []).1 rfl

/-! ## Claim C2 -/

/-- C2: on raw odometry samples at times 0, 1, 2 the synced value at
`t = 3/2` — strictly inside the raw time span — is `(0,0)` instead of
the interpolated `(5/2, 5/2)`, because the cursor check compares against
`end() - 1` rather than `end()`; at `t = 5/2`, past the last sample, the
code reaches the interpolation branch and dereferences `end()`
(undefined, `none`) instead of producing zero velocity.  At `t = 1/2`,
strictly inside and before the last inter-sample interval, linear
interpolation works as specified. -/
theorem syncedOdometry_end_off_by_one :
    syncedOdometryAt exC2Odo (3 / 2) = some (0, 0) ∧
    syncedOdometryAt exC2Odo (5 / 2) = none ∧
    syncedOdometryAt exC2Odo (1 / 2) = some (3 / 2, 3 / 2) := by
  refine ⟨?_, ?_, ?_⟩ <;> norm_num [syncedOdometryAt, exC2Odo, List.findIdx_cons]

/-! ## Claim C10 -/

/-- C10: `Robot::calculateOdometryError` produces exactly one error
record per ground-truth odometry index below `size - 1`: the error
record set is one shorter than the ground-truth odometry set, each
record carries the ground-truth time stamp of its index, and the final
synced timestep — whose ground-truth odometry is the copied synced value
— never receives an error record. -/
theorem calculateOdometryError_spec (gt synced : List (Odometry ℝ))
    (h0 : gt ≠ []) (hlen : synced.length = gt.length) :
    ∃ l, calculateOdometryError gt synced = .ok l ∧
      l.length = gt.length - 1 ∧
      ∀ k, k < gt.length - 1 → (l.get? k).map (·.time) = (gt.get? k).map (·.time) := by
  have hg : gt.length ≠ 0 := by simpa using h0
  have hs : synced.length ≠ 0 := by rw [hlen]; exact hg
  unfold calculateOdometryError
  rw [if_neg hg, if_neg hs, if_neg (by omega : ¬ synced.length < gt.length - 1)]
  refine ⟨_, rfl, ?_, ?_⟩
  · rw [List.length_zipWith, List.length_take]
    omega
  · intro k hk
    have hk1 : k < gt.length := by omega
    have hk2 : k < synced.length := by omega
    rw [List.get?_zipWith', List.get?_take hk, List.get?_eq_get hk1,
      List.get?_eq_get hk2]
    rfl

/-- C10, witness: the error-record count theorem applied to a concrete
two-step dataset. -/
theorem calculateOdometryError_spec_witness :
    exC10Gt ≠ [] ∧ exC10Synced.length = exC10Gt.length ∧
    (∃ l, calculateOdometryError exC10Gt exC10Synced = .ok l ∧
      l.length = exC10Gt.length - 1 ∧
      ∀ k, k < exC10Gt.length - 1 →
        (l.get? k).map (·.time) = (exC10Gt.get? k).map (·.time)) :=
  ⟨by simp [exC10Gt], by simp [exC10Gt, exC10Synced],
    calculateOdometryError_spec exC10Gt exC10Synced (by simp [exC10Gt])
      (by simp [exC10Gt, exC10Synced])⟩

/-! ## Claim C4 -/

/-- C4: for non-empty synced pose and odometry lists of equal length,
`DataHandler::calculateGroundtruthOdometry` yields one record per synced
step; at every step `k` except the last the forward velocity is the
Euclidean distance between poses `k` and `k+1` over the sample period
and the angular velocity is `atan2(sin Δθ, cos Δθ)` over the sample
period, time-stamped at pose `k`; and the final record is an exact copy
of the last synced odometry record. -/
theorem calculateGroundtruthOdometry_spec (states : List (State ℝ))
    (synced : List (Odometry ℝ)) (T : ℝ) (hs : states ≠ []) (ho : synced ≠ [])
    (hlen : synced.length = states.length) :
    ∃ l, calculateGroundtruthOdometry states synced T = some l ∧
      l.length = states.length ∧
      (∀ k, k + 1 < states.length →
        l.get? k = some
          ⟨(states.getD k default).time,
            Real.sqrt (((states.getD (k + 1) default).x - (states.getD k default).x) ^ 2 +
              ((states.getD (k + 1) default).y - (states.getD k default).y) ^ 2) / T,
            atan2
              (Real.sin ((states.getD (k + 1) default).orientation -
                (states.getD k default).orientation))
              (Real.cos ((states.getD (k + 1) default).orientation -
                (states.getD k default).orientation)) / T⟩) ∧
      l.getLast? = synced.getLast? := by
  obtain ⟨lastO, hlast⟩ : ∃ o, synced.getLast? = some o :=
    ⟨synced.getLast ho, List.getLast?_eq_getLast _ ho⟩
  cases states with
  | nil => exact absurd rfl hs
  | cons s ss =>
    refine ⟨List.zipWith (fun a b => derivedOdometry a b T) (s :: ss) ss ++
      [⟨lastO.time, lastO.forward_velocity, lastO.angular_velocity⟩], ?_, ?_, ?_, ?_⟩
    · simp only [calculateGroundtruthOdometry, hlast]
    · simp only [List.length_append, List.length_zipWith, List.length_cons,
        List.length_nil]
      omega
    · intro k hk
      have hk' : k < ss.length := by
        simp only [List.length_cons] at hk
        omega
      have hzlen : k < (List.zipWith (fun a b => derivedOdometry a b T) (s :: ss) ss).length := by
        simp only [List.length_zipWith, List.length_cons]
        omega
      rw [List.get?_append hzlen, List.get?_zipWith']
      rw [List.get?_eq_get (by simp; omega : k < (s :: ss).length),
        List.get?_eq_get hk']
      simp only [Option.map_some', Option.some_bind]
      have hgk : (s :: ss).getD k default = (s :: ss).get ⟨k, by simp; omega⟩ := by
        rw [List.getD_eq_get?, List.get?_eq_get (by simp; omega : k < (s :: ss).length)]
        rfl
      have hgk1 : (s :: ss).getD (k + 1) default = ss.get ⟨k, hk'⟩ := by
        rw [List.getD_eq_get?, List.get?_eq_get (by simp; omega : k + 1 < (s :: ss).length)]
        rfl
      rw [hgk, hgk1]
      unfold derivedOdometry
      congr 2
      ring_nf
    · rw [List.getLast?_concat, hlast]

/-- C4, witness: the derivation theorem applied to spec scenario 1's
agent 1 (`T = 1`), whose derived forward velocity at step 0 is `1.0`. -/
theorem calculateGroundtruthOdometry_spec_witness :
    exC4States ≠ [] ∧ exC4Synced ≠ [] ∧ exC4Synced.length = exC4States.length ∧
    (∃ l, calculateGroundtruthOdometry exC4States exC4Synced 1 = some l ∧
      l.length = exC4States.length ∧
      (∀ k, k + 1 < exC4States.length →
        l.get? k = some
          ⟨(exC4States.getD k default).time,
            Real.sqrt (((exC4States.getD (k + 1) default).x - (exC4States.getD k default).x) ^ 2 +
              ((exC4States.getD (k + 1) default).y - (exC4States.getD k default).y) ^ 2) / 1,
            atan2
              (Real.sin ((exC4States.getD (k + 1) default).orientation -
                (exC4States.getD k default).orientation))
              (Real.cos ((exC4States.getD (k + 1) default).orientation -
                (exC4States.getD k default).orientation)) / 1⟩) ∧
      l.getLast? = exC4Synced.getLast?) :=
  ⟨by simp [exC4States], by simp [exC4Synced], by simp [exC4States, exC4Synced],
    calculateGroundtruthOdometry_spec exC4States exC4Synced 1 (by simp [exC4States])
      (by simp [exC4Synced]) (by simp [exC4States, exC4Synced])⟩

/-! ## Claim C7 -/

/-- C7, counterexample: on the sorted five-element channel
`[0, 1, 2, 3, 4]` the source computes `(median, q1, q3, iqr) =
(2, 0, 4, 4)`, while the claim's convention — the lower half including
the median element for odd `n`, Q3 the median of the upper half — gives
`(2, 1, 3, 2)`: the odd-`n` branch excludes the median from the lower
half and passes a one-past-the-end upper bound for Q3. -/
theorem calculateQuartiles_counterexample :
    calculateQuartiles exC7 = some (2, 0, 4, 4) ∧
    specQuartiles exC7 = some (2, 1, 3, 2) ∧
    calculateQuartiles exC7 ≠ specQuartiles exC7 := by
  have h1 : calculateQuartiles exC7 = some (2, 0, 4, 4) := by
    norm_num [calculateQuartiles, exC7, calculateMedian]
  have h2 : specQuartiles exC7 = some (2, 1, 3, 2) := by
    norm_num [specQuartiles, exC7, specMedianOfSorted]
  refine ⟨h1, h2, by rw [h1, h2]; norm_num⟩

/-- C7, amended: for a sorted channel of `n ≥ 2` values the median is
the element at index `⌈n/2⌉ - 1`; for even `n`, Q1 and Q3 are the lower
medians of the two halves as claimed; for odd `n`, Q1 is the lower
median of the lower half *excluding* the median element, and Q3 — whose
upper index is passed as `sorted_vector.size()`, one past the end — is
the *upper* median of the upper half excluding the median element;
IQR = Q3 - Q1.  (For `n = 1` the odd branch underflows and `.at` throws;
for `n = 0` the median access is out of bounds — both modelled `none`.) -/
theorem calculateQuartiles_spec (v : List ℚ) (h : 2 ≤ v.length) :
    ∃ med q1 q3 : ℚ,
      calculateQuartiles v = some (med, q1, q3, q3 - q1) ∧
      v.get? ((v.length + 1) / 2 - 1) = some med ∧
      (v.length % 2 = 0 →
        specMedianOfSorted (v.take (v.length / 2)) = some q1 ∧
        specMedianOfSorted (v.drop (v.length / 2)) = some q3) ∧
      (v.length % 2 = 1 →
        specMedianOfSorted (v.take ((v.length - 1) / 2)) = some q1 ∧
        (v.drop ((v.length + 1) / 2)).get? ((v.length - 1) / 2 / 2) = some q3) := by
  have hidx : calculateMedian 0 (v.length - 1) = (v.length + 1) / 2 - 1 := by
    unfold calculateMedian
    omega
  have hmedlt : (v.length + 1) / 2 - 1 < v.length := by omega
  rcases Nat.mod_two_eq_zero_or_one v.length with hpar | hpar
  · -- even length
    have e1 : calculateMedian 0 ((v.length + 1) / 2 - 1) = (v.length / 2 + 1) / 2 - 1 := by
      unfold calculateMedian
      omega
    have e2 : calculateMedian ((v.length + 1) / 2 - 1 + 1) (v.length - 1) =
        v.length / 2 + ((v.length - v.length / 2 + 1) / 2 - 1) := by
      unfold calculateMedian
      omega
    have hq1lt : (v.length / 2 + 1) / 2 - 1 < v.length := by omega
    have hq3lt : v.length / 2 + ((v.length - v.length / 2 + 1) / 2 - 1) < v.length := by
      omega
    refine ⟨v.get ⟨_, hmedlt⟩, v.get ⟨_, hq1lt⟩, v.get ⟨_, hq3lt⟩, ?_, ?_, ?_, ?_⟩
    · simp only [calculateQuartiles, hidx]
      rw [if_neg (by omega : ¬ v.length ≤ 1), e1, e2]
      rw [List.get?_eq_get hmedlt]
      simp only [Option.bind_eq_bind, Option.some_bind, if_pos hpar]
      rw [List.get?_eq_get hq1lt]
      simp only [Option.bind_eq_bind, Option.some_bind]
      rw [List.get?_eq_get hq3lt]
      simp only [Option.bind_eq_bind, Option.some_bind]
      rfl
    · exact List.get?_eq_get hmedlt
    · intro _
      constructor
      · unfold specMedianOfSorted
        rw [List.length_take, Nat.min_eq_left (by omega)]
        rw [List.get?_take (by omega : (v.length / 2 + 1) / 2 - 1 < v.length / 2)]
        exact List.get?_eq_get hq1lt
      · unfold specMedianOfSorted
        rw [List.length_drop, List.get?_drop]
        exact List.get?_eq_get hq3lt
    · intro hodd
      omega
  · -- odd length
    have e1 : calculateMedian 0 ((v.length + 1) / 2 - 1 - 1) =
        ((v.length - 1) / 2 + 1) / 2 - 1 := by
      unfold calculateMedian
      omega
    have e2 : calculateMedian ((v.length + 1) / 2 - 1 + 1) v.length =
        (v.length + 1) / 2 + (v.length - 1) / 2 / 2 := by
      unfold calculateMedian
      omega
    have hq1lt : ((v.length - 1) / 2 + 1) / 2 - 1 < v.length := by omega
    have hq3lt : (v.length + 1) / 2 + (v.length - 1) / 2 / 2 < v.length := by omega
    refine ⟨v.get ⟨_, hmedlt⟩, v.get ⟨_, hq1lt⟩, v.get ⟨_, hq3lt⟩, ?_, ?_, ?_, ?_⟩
    · simp only [calculateQuartiles, hidx]
      rw [if_neg (by omega : ¬ v.length ≤ 1), e1, e2]
      rw [List.get?_eq_get hmedlt]
      simp only [Option.bind_eq_bind, Option.some_bind,
        if_neg (by omega : ¬ v.length % 2 = 0)]
      rw [List.get?_eq_get hq1lt]
      simp only [Option.bind_eq_bind, Option.some_bind]
      rw [List.get?_eq_get hq3lt]
      simp only [Option.bind_eq_bind, Option.some_bind]
      rfl
    · exact List.get?_eq_get hmedlt
    · intro heven
      omega
    · intro _
      constructor
      · unfold specMedianOfSorted
        rw [List.length_take, Nat.min_eq_left (by omega)]
        rw [List.get?_take
          (by omega : ((v.length - 1) / 2 + 1) / 2 - 1 < (v.length - 1) / 2)]
        exact List.get?_eq_get hq1lt
      · rw [List.get?_drop]
        exact List.get?_eq_get hq3lt

/-- C7, witness: the amended quartile theorem applied to the concrete
five-element channel. -/
theorem calculateQuartiles_spec_witness :
    2 ≤ exC7.length ∧
    (∃ med q1 q3 : ℚ,
      calculateQuartiles exC7 = some (med, q1, q3, q3 - q1) ∧
      exC7.get? ((exC7.length + 1) / 2 - 1) = some med ∧
      (exC7.length % 2 = 0 →
        specMedianOfSorted (exC7.take (exC7.length / 2)) = some q1 ∧
        specMedianOfSorted (exC7.drop (exC7.length / 2)) = some q3) ∧
      (exC7.length % 2 = 1 →
        specMedianOfSorted (exC7.take ((exC7.length - 1) / 2)) = some q1 ∧
        (exC7.drop ((exC7.length + 1) / 2)).get? ((exC7.length - 1) / 2 / 2) = some q3)) :=
  ⟨by decide, calculateQuartiles_spec exC7 (by decide)⟩

/-! ## Claim C8 -/

/-- C8: on a single bundle with range errors `[1, 3]` the computed range
mean is the claimed arithmetic mean `2` of the individual values, but
the computed variance is `((1+3) - 2)² / (2-1) = 4` — one squared
deviation of the *bundle's summed* ranges — whereas the claim's (and the
function's own documentation's) per-element Bessel-corrected variance is
`((1-2)² + (3-2)²) / (2-1) = 2`. -/
theorem rangeVariance_bundle_sum :
    rangeErrorMean exC8 = 2 ∧
    specMean (rangeChannel exC8) = 2 ∧
    rangeErrorVariance exC8 = 4 ∧
    specVariance (rangeChannel exC8) = 2 ∧
    rangeErrorVariance exC8 ≠ specVariance (rangeChannel exC8) := by
  refine ⟨?_, ?_, ?_, ?_, ?_⟩ <;>
    norm_num [rangeErrorMean, rangeErrorVariance, totalMeasurements, specMean,
      specVariance, rangeChannel, exC8]

/-! ## Claim C6 -/

theorem keepTriple_eq_not_outlier (rs bs : ErrorStatistics ℚ) (t : ℕ × ℚ × ℚ) :
    keepTriple rs bs t = ! outlierTriple rs bs t.2.1 t.2.2 := by
  simp only [keepTriple, outlierTriple, Bool.not_or, ← decide_not, not_lt]

theorem removeOutlierTriples_eq (rs bs : ErrorStatistics ℚ) :
    ∀ (ss : List ℕ) (rgs brs : List ℚ), rgs.length = ss.length →
    brs.length = ss.length →
    removeOutlierTriples rs bs ss rgs brs =
      some (((ss.zip (rgs.zip brs)).filter (keepTriple rs bs)).map (·.1),
        ((ss.zip (rgs.zip brs)).filter (keepTriple rs bs)).map (·.2.1),
        ((ss.zip (rgs.zip brs)).filter (keepTriple rs bs)).map (·.2.2)) := by
  intro ss
  induction ss with
  | nil =>
    intro rgs brs h1 h2
    rw [List.length_eq_zero.mp h1, List.length_eq_zero.mp h2]
    rfl
  | cons x ss ih =>
    intro rgs brs h1 h2
    cases rgs with
    | nil => simp at h1
    | cons r rgs =>
      cases brs with
      | nil => simp at h2
      | cons b brs =>
        have h1' : rgs.length = ss.length := by simpa using h1
        have h2' : brs.length = ss.length := by simpa using h2
        have hkeep : keepTriple rs bs (x, r, b) = ! outlierTriple rs bs r b :=
          keepTriple_eq_not_outlier rs bs (x, r, b)
        simp only [removeOutlierTriples, List.zip_cons_cons, List.filter_cons, hkeep]
        by_cases hout : outlierTriple rs bs r b
        · rw [if_pos hout, ih rgs brs h1' h2', hout]
          simp
        · have hfalse : outlierTriple rs bs r b = false := Bool.eq_false_iff.mpr hout
          rw [if_neg hout, ih rgs brs h1' h2']
          simp [hfalse]

/-- C6: for a measurement-error record set whose bundles have equal-length
subject/range/bearing sequences, `Robot::removeOutliers` keeps a
(subject, range, bearing) triple exactly when its range error lies
within `[Q1 - 10·IQR, Q3 + 10·IQR]` and its bearing error within
`[Q1 - 20·IQR, Q3 + 20·IQR]`, erasing the three entries together, and a
bundle whose subjects become empty is removed entirely, so no empty
bundle remains. -/
theorem removeOutliers_spec (rs bs : ErrorStatistics ℚ) (ms : List (Measurement ℚ))
    (h : ∀ m ∈ ms, m.ranges.length = m.subjects.length ∧
      m.bearings.length = m.subjects.length) :
    ∃ ms', removeOutliers rs bs ms = some ms' ∧
      ms' = ms.filterMap (fun m =>
        let kept := (m.subjects.zip (m.ranges.zip m.bearings)).filter (keepTriple rs bs)
        if kept.isEmpty then none
        else some ⟨m.time, kept.map (·.1), kept.map (·.2.1), kept.map (·.2.2)⟩) ∧
      ∀ m' ∈ ms', m'.subjects ≠ [] := by
  induction ms with
  | nil => exact ⟨[], rfl, rfl, by simp⟩
  | cons m ms ih =>
    obtain ⟨h1, h2⟩ := h m (List.mem_cons_self m ms)
    obtain ⟨ms', hms', hchar, hne⟩ := ih (fun m' hm' => h m' (List.mem_cons_of_mem m hm'))
    set kept := (m.subjects.zip (m.ranges.zip m.bearings)).filter (keepTriple rs bs) with hkept
    by_cases hk : kept.isEmpty
    · refine ⟨ms', ?_, ?_, hne⟩
      · simp only [removeOutliers, removeOutlierTriples_eq rs bs m.subjects m.ranges
          m.bearings h1 h2, Option.bind_eq_bind, Option.some_bind, hms', ← hkept]
        rw [show (kept.map (·.1)).isEmpty = true by
          simp only [List.isEmpty_iff] at hk ⊢; simp [hk]]
        rfl
      · rw [List.filterMap_cons]
        simp only [← hkept, hk]
        exact hchar
    · refine ⟨⟨m.time, kept.map (·.1), kept.map (·.2.1), kept.map (·.2.2)⟩ :: ms', ?_, ?_, ?_⟩
      · simp only [removeOutliers, removeOutlierTriples_eq rs bs m.subjects m.ranges
          m.bearings h1 h2, Option.bind_eq_bind, Option.some_bind, hms', ← hkept]
        rw [show (kept.map (·.1)).isEmpty = false by
          simp only [List.isEmpty_iff] at hk ⊢; simp [hk]]
        rfl
      · rw [List.filterMap_cons]
        simp only [← hkept]
        rw [show kept.isEmpty = false from Bool.eq_false_iff.mpr hk]
        simp only [Bool.false_eq_true, if_false]
        rw [hchar]
      · intro m' hm'
        rcases List.mem_cons.mp hm' with rfl | hmem
        · simp only [ne_eq, List.map_eq_nil]
          intro hcon
          rw [hcon] at hk
          exact hk rfl
        · exact hne m' hmem

/-- C6, witness: the outlier-removal theorem applied to spec scenario 3:
range window `[-9, 12]`, a bundle with range errors `[15, 1]`. -/
theorem removeOutliers_spec_witness :
    (∀ m ∈ exC6Ms, m.ranges.length = m.subjects.length ∧
      m.bearings.length = m.subjects.length) ∧
    (∃ ms', removeOutliers exC6RangeStats exC6BearingStats exC6Ms = some ms' ∧
      ms' = exC6Ms.filterMap (fun m =>
        let kept := (m.subjects.zip (m.ranges.zip m.bearings)).filter
          (keepTriple exC6RangeStats exC6BearingStats)
        if kept.isEmpty then none
        else some ⟨m.time, kept.map (·.1), kept.map (·.2.1), kept.map (·.2.2)⟩) ∧
      ∀ m' ∈ ms', m'.subjects ≠ []) :=
  ⟨by decide, removeOutliers_spec exC6RangeStats exC6BearingStats exC6Ms (by decide)⟩

/-! ## Claim C5 -/

theorem measureRobots_eq (ox oy oθ : ℝ) (selfIdx : ℕ) :
    ∀ (l : List SimRobot) (j : ℕ),
    measureRobots ox oy oθ selfIdx l j =
      (l.enumFrom j).filterMap (fun p =>
        if p.1 = selfIdx then none
        else simObserve ox oy oθ p.2.barcode p.2.x p.2.y) := by
  intro l
  induction l with
  | nil => intro j; rfl
  | cons s rest ih =>
    intro j
    simp only [measureRobots, List.enumFrom, List.filterMap_cons]
    by_cases hj : j = selfIdx
    · rw [if_pos hj, if_pos hj, ih]
      rfl
    · rw [if_neg hj, if_neg hj, ih]
      rcases hobs : simObserve ox oy oθ s.barcode s.x s.y with _ | o <;> rfl

theorem measureLandmarks_eq (ox oy oθ : ℝ) :
    ∀ (ls : List SimLandmark) (n : ℕ), n ≤ ls.length →
    measureLandmarks ox oy oθ ls n =
      some ((ls.take n).filterMap (fun L => simObserve ox oy oθ L.barcode L.x L.y)) := by
  intro ls
  induction ls with
  | nil =>
    intro n hn
    have h0 : n = 0 := Nat.le_zero.mp (by simpa using hn)
    subst h0
    rfl
  | cons L rest ih =>
    intro n hn
    cases n with
    | zero => rfl
    | succ m =>
      have hm : m ≤ rest.length := by simpa using hn
      simp only [measureLandmarks, ih m hm, Option.bind_eq_bind, Option.some_bind,
        List.take_succ_cons, List.filterMap_cons]
      rcases hobs : simObserve ox oy oθ L.barcode L.x L.y with _ | o <;> rfl

/-- C5, amended: at a trajectory step that is a multiple of the
measurement-to-odometry ratio 5, the bundled observations of observer
`i` are exactly: for every other robot, and for each of the *first
`total_robots`* landmarks (the landmark loop is bounded by the robot
count), the observation whose range is the Euclidean distance of the
*observer-minus-subject* differences, accepted only when that range is
at most 4 and the bearing computed from those same reversed differences,
wrapped, has magnitude at most 0.52; at any other step no observations
are produced. -/
theorem setRobotMeasurement_spec (robots : List SimRobot)
    (landmarks : List SimLandmark) (i k : ℕ) (hi : i < robots.length)
    (hlen : robots.length ≤ landmarks.length) :
    (k % 5 = 0 → ∃ obs l, robots.get? i = some obs ∧
      simObservationsAt k robots landmarks i = some l ∧
      l = (robots.enum.filterMap (fun p =>
            if p.1 = i then none
            else simObserve obs.x obs.y obs.orientation p.2.barcode p.2.x p.2.y)) ++
          ((landmarks.take robots.length).filterMap (fun L =>
            simObserve obs.x obs.y obs.orientation L.barcode L.x L.y))) ∧
    (k % 5 ≠ 0 → simObservationsAt k robots landmarks i = some []) := by
  constructor
  · intro hk
    obtain ⟨obs, hobs⟩ : ∃ o, robots.get? i = some o := ⟨_, List.get?_eq_get hi⟩
    refine ⟨obs, _, hobs, ?_, rfl⟩
    unfold simObservationsAt
    rw [if_pos hk]
    unfold simBundle
    rw [hobs]
    simp only [Option.bind_eq_bind, Option.some_bind]
    rw [measureLandmarks_eq obs.x obs.y obs.orientation landmarks robots.length hlen]
    simp only [Option.some_bind]
    rw [measureRobots_eq]
    rfl
  · intro hk
    unfold simObservationsAt
    rw [if_neg hk]

/-- C5, counterexample: the observer at the origin and a second robot
one metre straight ahead of it.  The claim's relative-pose formula (the
one ground-truth derivation uses, subject minus observer) accepts that
robot with range 1 and bearing 0, yet the simulator's bundle for the
observer is empty: the code subtracts the subject from the *observer*,
obtaining bearing `-π`, and rejects the observation against the 0.52
field-of-view bound. -/
theorem simMeasurement_counterexample :
    simBundle exC5Robots exC5Lms 0 = some [] ∧
    specObserve 0 0 0 2 1 0 = some (2, 1, 0) := by
  have hpi : (0.52 : ℝ) < Real.pi := by
    nlinarith [Real.pi_gt_three]
  have hrobs : simObserve 0 0 0 2 1 0 = none := by
    simp only [simObserve]
    rw [show ((0 : ℝ) - 1) * ((0 : ℝ) - 1) + ((0 : ℝ) - 0) * ((0 : ℝ) - 0) = 1 by
      norm_num, Real.sqrt_one]
    rw [if_neg (by norm_num : ¬ (4 : ℝ) < 1)]
    rw [show ((0 : ℝ) - 0) = 0 by norm_num, show ((0 : ℝ) - 1) = -1 by norm_num]
    rw [atan2_zero_neg_one, sub_zero, wrapAngle_pi]
    rw [if_pos (by rw [abs_neg, abs_of_pos Real.pi_pos]; exact hpi)]
  have hlm : ∀ sb : ℕ, simObserve 0 0 0 sb 100 0 = none := by
    intro sb
    simp only [simObserve]
    rw [show ((0 : ℝ) - 100) * ((0 : ℝ) - 100) + ((0 : ℝ) - 0) * ((0 : ℝ) - 0) = 10000 by
      norm_num]
    rw [if_pos ((Real.lt_sqrt (by norm_num)).mpr (by norm_num))]
  constructor
  · unfold simBundle
    rw [show exC5Robots.get? 0 = some ⟨1, 0, 0, 0⟩ from rfl]
    simp only [Option.bind_eq_bind, Option.some_bind]
    rw [measureLandmarks_eq _ _ _ exC5Lms exC5Robots.length (by decide)]
    simp only [Option.some_bind]
    rw [measureRobots_eq]
    simp [exC5Robots, exC5Lms, List.enumFrom, hrobs, hlm]
  · simp only [specObserve, gtRange, gtBearing]
    rw [show ((1 : ℝ) - 0) * ((1 : ℝ) - 0) + ((0 : ℝ) - 0) * ((0 : ℝ) - 0) = 1 by
      norm_num, Real.sqrt_one]
    rw [if_neg (by norm_num : ¬ (4 : ℝ) < 1)]
    rw [show ((0 : ℝ) - 0) = 0 by norm_num, show ((1 : ℝ) - 0) = 1 by norm_num]
    rw [atan2_zero_one, sub_zero,
      wrapAngle_eq_self (by linarith [Real.pi_pos]) Real.pi_pos]
    rw [if_neg (by rw [abs_zero]; norm_num : ¬ (0.52 : ℝ) < |(0 : ℝ)|)]

/-- C5, witness: the amended simulator-measurement theorem applied to
the two-robot, two-landmark configuration at step 0. -/
theorem setRobotMeasurement_spec_witness :
    0 < exC5Robots.length ∧ exC5Robots.length ≤ exC5Lms.length ∧
    ((0 % 5 = 0 → ∃ obs l, exC5Robots.get? 0 = some obs ∧
      simObservationsAt 0 exC5Robots exC5Lms 0 = some l ∧
      l = (exC5Robots.enum.filterMap (fun p =>
            if p.1 = 0 then none
            else simObserve obs.x obs.y obs.orientation p.2.barcode p.2.x p.2.y)) ++
          ((exC5Lms.take exC5Robots.length).filterMap (fun L =>
            simObserve obs.x obs.y obs.orientation L.barcode L.x L.y))) ∧
    (0 % 5 ≠ 0 → simObservationsAt 0 exC5Robots exC5Lms 0 = some [])) :=
  ⟨by decide, by decide,
    setRobotMeasurement_spec exC5Robots exC5Lms 0 0 (by decide) (by decide)⟩
